import Mathlib

/-!
# Verification of `llp.core.baseline` (linux-less-persistence)

A shallow embedding, in Lean 4, of `src/llp/core/baseline.py` and the parts
of `src/llp/core/models.py` it depends on, followed by theorems settling the
specification claims about stable finding identifiers, baseline
construction, JSON (de)serialization and baseline diffing.

Modelling conventions:
* Python byte strings are `List Nat` with every element `< 256`.
* `hashlib.sha256` (Python standard library) is embedded as a full
  executable SHA-256 (FIPS 180-4) over `Nat` words reduced `% 2^32`.
* `str.encode("utf-8")` is embedded as a standard UTF-8 encoder over the
  string's characters (Unicode scalar values).
* Parsed JSON values (the result of `json.loads` / the argument of
  `json.dumps`) are embedded as a `Json` AST; the standard library's
  text-level parse/print round-trip is the identity on this AST.
  A `Json.obj` models a Python `dict` produced by `json.loads`, whose keys
  are unique and which preserves insertion order.
* Python `None` and JSON `null` are the same value (`Json.null`), exactly as
  in Python where `json.loads` maps `null` to `None`.
* Code that can raise an exception is embedded with an `Option` result.
-/

/-- Python values that occur as `Evidence.value` (typed `Any` in the
source); `pyStr` is Python's `str()` on them. -/
inductive PyVal where
  | pstr (s : String)
  | pint (i : Int)
  | pbool (b : Bool)
  | pnone
deriving DecidableEq, Repr

/-- Python `str()` on a `PyVal`. -/
def pyStr : PyVal → String
  | .pstr s => s
  | .pint i => toString i
  | .pbool b => if b then "True" else "False"
  | .pnone => "None"

/-- Parsed JSON values, i.e. what `json.loads` returns: `null`/`None`,
booleans, numbers (integral ones suffice here), strings, arrays/lists and
objects/dicts (unique keys, insertion order preserved). -/
inductive Json where
  | null
  | bool (b : Bool)
  | num (n : Int)
  | str (s : String)
  | arr (elems : List Json)
  | obj (entries : List (String × Json))
deriving Repr

/-- Structural equality of parsed JSON values is decidable (Python `==`/`!=`
on the values returned by `json.loads`). -/
def Json.decEq : (a b : Json) → Decidable (a = b)
  | .null, .null => isTrue rfl
  | .bool x, .bool y =>
      if h : x = y then isTrue (h ▸ rfl) else isFalse (fun he => h (Json.bool.inj he))
  | .num x, .num y =>
      if h : x = y then isTrue (h ▸ rfl) else isFalse (fun he => h (Json.num.inj he))
  | .str x, .str y =>
      if h : x = y then isTrue (h ▸ rfl) else isFalse (fun he => h (Json.str.inj he))
  | .arr [], .arr [] => isTrue rfl
  | .arr [], .arr (_ :: _) => isFalse (fun h => List.noConfusion (Json.arr.inj h))
  | .arr (_ :: _), .arr [] => isFalse (fun h => List.noConfusion (Json.arr.inj h))
  | .arr (x :: xs), .arr (y :: ys) =>
      match Json.decEq x y, Json.decEq (.arr xs) (.arr ys) with
      | isTrue h1, isTrue h2 => isTrue (by cases h1; cases Json.arr.inj h2; rfl)
      | isFalse h1, _ => isFalse (fun h => h1 (List.cons.inj (Json.arr.inj h)).1)
      | _, isFalse h2 => isFalse (fun h => h2 (by cases (List.cons.inj (Json.arr.inj h)).2; rfl))
  | .obj [], .obj [] => isTrue rfl
  | .obj [], .obj (_ :: _) => isFalse (fun h => List.noConfusion (Json.obj.inj h))
  | .obj (_ :: _), .obj [] => isFalse (fun h => List.noConfusion (Json.obj.inj h))
  | .obj ((k1, v1) :: xs), .obj ((k2, v2) :: ys) =>
      if hk : k1 = k2 then
        match Json.decEq v1 v2, Json.decEq (.obj xs) (.obj ys) with
        | isTrue h1, isTrue h2 => isTrue (by cases hk; cases h1; cases Json.obj.inj h2; rfl)
        | isFalse h1, _ =>
            isFalse (fun h => h1 (congrArg Prod.snd (List.cons.inj (Json.obj.inj h)).1))
        | _, isFalse h2 =>
            isFalse (fun h => h2 (by cases (List.cons.inj (Json.obj.inj h)).2; rfl))
      else
        isFalse (fun h => hk (congrArg Prod.fst (List.cons.inj (Json.obj.inj h)).1))
  | .null, .bool _ => isFalse (fun h => Json.noConfusion h)
  | .null, .num _ => isFalse (fun h => Json.noConfusion h)
  | .null, .str _ => isFalse (fun h => Json.noConfusion h)
  | .null, .arr _ => isFalse (fun h => Json.noConfusion h)
  | .null, .obj _ => isFalse (fun h => Json.noConfusion h)
  | .bool _, .null => isFalse (fun h => Json.noConfusion h)
  | .bool _, .num _ => isFalse (fun h => Json.noConfusion h)
  | .bool _, .str _ => isFalse (fun h => Json.noConfusion h)
  | .bool _, .arr _ => isFalse (fun h => Json.noConfusion h)
  | .bool _, .obj _ => isFalse (fun h => Json.noConfusion h)
  | .num _, .null => isFalse (fun h => Json.noConfusion h)
  | .num _, .bool _ => isFalse (fun h => Json.noConfusion h)
  | .num _, .str _ => isFalse (fun h => Json.noConfusion h)
  | .num _, .arr _ => isFalse (fun h => Json.noConfusion h)
  | .num _, .obj _ => isFalse (fun h => Json.noConfusion h)
  | .str _, .null => isFalse (fun h => Json.noConfusion h)
  | .str _, .bool _ => isFalse (fun h => Json.noConfusion h)
  | .str _, .num _ => isFalse (fun h => Json.noConfusion h)
  | .str _, .arr _ => isFalse (fun h => Json.noConfusion h)
  | .str _, .obj _ => isFalse (fun h => Json.noConfusion h)
  | .arr _, .null => isFalse (fun h => Json.noConfusion h)
  | .arr _, .bool _ => isFalse (fun h => Json.noConfusion h)
  | .arr _, .num _ => isFalse (fun h => Json.noConfusion h)
  | .arr _, .str _ => isFalse (fun h => Json.noConfusion h)
  | .arr _, .obj _ => isFalse (fun h => Json.noConfusion h)
  | .obj _, .null => isFalse (fun h => Json.noConfusion h)
  | .obj _, .bool _ => isFalse (fun h => Json.noConfusion h)
  | .obj _, .num _ => isFalse (fun h => Json.noConfusion h)
  | .obj _, .str _ => isFalse (fun h => Json.noConfusion h)
  | .obj _, .arr _ => isFalse (fun h => Json.noConfusion h)

instance : DecidableEq Json := Json.decEq

/-- Python value of a `PyVal` as a JSON value (how `json.dumps` would
serialize it inside `Finding.to_dict`'s result). -/
def pyJson : PyVal → Json
  | .pstr s => .str s
  | .pint i => .num i
  | .pbool b => .bool b
  | .pnone => .null

/-- `models.Evidence`: dataclass with fields `source`, `key`, `value`. -/
structure Evidence where
  source : String
  key : String
  value : PyVal
deriving DecidableEq, Repr

/-- `models.Finding`: dataclass with the seven fields of the source. -/
structure Finding where
  check_id : String
  title : String
  severity : String
  description : String
  evidence : List Evidence
  remediation : Option String
  references : List String
deriving DecidableEq, Repr

/-- A serialized finding: the Python `Dict` produced by `Finding.to_dict`
(or stored inside a loaded baseline). -/
abbrev FDict := List (String × Json)

/-- `Finding.to_dict` from `models.py`: the dict with the seven fixed keys;
`Evidence.__dict__` gives the three-field evidence dicts. -/
def Finding.to_dict (f : Finding) : FDict :=
  [ ("check_id", .str f.check_id)
  , ("title", .str f.title)
  , ("severity", .str f.severity)
  , ("description", .str f.description)
  , ("evidence", .arr (f.evidence.map (fun e =>
      .obj [("source", .str e.source), ("key", .str e.key), ("value", pyJson e.value)])))
  , ("remediation", match f.remediation with | none => .null | some r => .str r)
  , ("references", .arr (f.references.map Json.str)) ]

/-! ## SHA-256 (FIPS 180-4), the embedding of `hashlib.sha256` -/

/-- `2^32`, the word modulus. -/
def M32 : Nat := 4294967296

/-- Right rotation of a 32-bit word. -/
def rotr32 (n x : Nat) : Nat := ((x >>> n) ||| (x <<< (32 - n))) % M32

/-- SHA-256 `Σ0`. -/
def bSig0 (x : Nat) : Nat := (rotr32 2 x) ^^^ (rotr32 13 x) ^^^ (rotr32 22 x)

/-- SHA-256 `Σ1`. -/
def bSig1 (x : Nat) : Nat := (rotr32 6 x) ^^^ (rotr32 11 x) ^^^ (rotr32 25 x)

/-- SHA-256 `σ0`. -/
def sSig0 (x : Nat) : Nat := (rotr32 7 x) ^^^ (rotr32 18 x) ^^^ (x >>> 3)

/-- SHA-256 `σ1`. -/
def sSig1 (x : Nat) : Nat := (rotr32 17 x) ^^^ (rotr32 19 x) ^^^ (x >>> 10)

/-- SHA-256 `Ch`. -/
def ch256 (e f g : Nat) : Nat := (e &&& f) ^^^ ((e ^^^ 4294967295) &&& g)

/-- SHA-256 `Maj`. -/
def maj256 (a b c : Nat) : Nat := (a &&& b) ^^^ (a &&& c) ^^^ (b &&& c)

/-- The 64 SHA-256 round constants (FIPS 180-4 §4.2.2), in groups of
eight. -/
def K256 : List Nat :=
  [0x428a2f98, 0x71374491, 0xb5c0fbcf, 0xe9b5dba5, 0x3956c25b, 0x59f111f1, 0x923f82a4,
   0xab1c5ed5] ++
  [0xd807aa98, 0x12835b01, 0x243185be, 0x550c7dc3, 0x72be5d74, 0x80deb1fe, 0x9bdc06a7,
   0xc19bf174] ++
  [0xe49b69c1, 0xefbe4786, 0x0fc19dc6, 0x240ca1cc, 0x2de92c6f, 0x4a7484aa, 0x5cb0a9dc,
   0x76f988da] ++
  [0x983e5152, 0xa831c66d, 0xb00327c8, 0xbf597fc7, 0xc6e00bf3, 0xd5a79147, 0x06ca6351,
   0x14292967] ++
  [0x27b70a85, 0x2e1b2138, 0x4d2c6dfc, 0x53380d13, 0x650a7354, 0x766a0abb, 0x81c2c92e,
   0x92722c85] ++
  [0xa2bfe8a1, 0xa81a664b, 0xc24b8b70, 0xc76c51a3, 0xd192e819, 0xd6990624, 0xf40e3585,
   0x106aa070] ++
  [0x19a4c116, 0x1e376c08, 0x2748774c, 0x34b0bcb5, 0x391c0cb3, 0x4ed8aa4a, 0x5b9cca4f,
   0x682e6ff3] ++
  [0x748f82ee, 0x78a5636f, 0x84c87814, 0x8cc70208, 0x90befffa, 0xa4506ceb, 0xbef9a3f7,
   0xc67178f2]

/-- SHA-256 working state: eight 32-bit words. -/
structure Hash8 where
  a : Nat
  b : Nat
  c : Nat
  d : Nat
  e : Nat
  f : Nat
  g : Nat
  h : Nat
deriving Repr

/-- The SHA-256 initial hash value. -/
def initH : Hash8 :=
  ⟨0x6a09e667, 0xbb67ae85, 0x3c6ef372, 0xa54ff53a, 0x510e527f, 0x9b05688c, 0x1f83d9ab, 0x5be0cd19⟩

/-- Append the `0x80` byte, the zero padding and the 64-bit big-endian bit
length, so the total length is a multiple of 64 bytes. -/
def padMessage (msg : List Nat) : List Nat :=
  let l := msg.length
  let bits := 8 * l
  msg ++ [0x80] ++ List.replicate ((119 - (l % 64)) % 64) 0 ++
    [ (bits >>> 56) % 256, (bits >>> 48) % 256, (bits >>> 40) % 256, (bits >>> 32) % 256
    , (bits >>> 24) % 256, (bits >>> 16) % 256, (bits >>> 8) % 256, bits % 256 ]

/-- Split a byte list into 64-byte blocks. -/
def toBlocks (l : List Nat) : List (List Nat) :=
  match l with
  | [] => []
  | x :: xs => ((x :: xs).take 64) :: toBlocks ((x :: xs).drop 64)
termination_by l.length
decreasing_by simp [List.length_drop]; omega

/-- Big-endian 32-bit words of a block. -/
def toWords : List Nat → List Nat
  | a :: b :: c :: d :: rest => ((a <<< 24) ||| (b <<< 16) ||| (c <<< 8) ||| d) :: toWords rest
  | _ => []

/-- One extension step of the message schedule: append word `w.length`. -/
def stepW (w : List Nat) : List Nat :=
  let i := w.length
  w ++ [(w.getD (i - 16) 0 + sSig0 (w.getD (i - 15) 0) + w.getD (i - 7) 0
          + sSig1 (w.getD (i - 2) 0)) % M32]

/-- Extend the message schedule by `k` words. -/
def extendW : Nat → List Nat → List Nat
  | 0, w => w
  | k + 1, w => extendW k (stepW w)

/-- One SHA-256 compression round; `kw` is the pair of round constant and
schedule word. -/
def sha256Round (s : Hash8) (kw : Nat × Nat) : Hash8 :=
  let t1 := (s.h + bSig1 s.e + ch256 s.e s.f s.g + kw.1 + kw.2) % M32
  let t2 := (bSig0 s.a + maj256 s.a s.b s.c) % M32
  ⟨(t1 + t2) % M32, s.a, s.b, s.c, (s.d + t1) % M32, s.e, s.f, s.g⟩

/-- Compress one 64-byte block into the running state. -/
def compressBlock (s : Hash8) (block : List Nat) : Hash8 :=
  let w := extendW 48 (toWords block)
  let t := (K256.zip w).foldl sha256Round s
  ⟨ (s.a + t.a) % M32, (s.b + t.b) % M32, (s.c + t.c) % M32, (s.d + t.d) % M32
  , (s.e + t.e) % M32, (s.f + t.f) % M32, (s.g + t.g) % M32, (s.h + t.h) % M32 ⟩

/-- Big-endian bytes of a 32-bit word. -/
def wordBytes (w : Nat) : List Nat :=
  [(w >>> 24) % 256, (w >>> 16) % 256, (w >>> 8) % 256, w % 256]

/-- SHA-256 digest (32 bytes) of a byte string. -/
def sha256 (msg : List Nat) : List Nat :=
  let s := (toBlocks (padMessage msg)).foldl compressBlock initH
  wordBytes s.a ++ wordBytes s.b ++ wordBytes s.c ++ wordBytes s.d ++
  wordBytes s.e ++ wordBytes s.f ++ wordBytes s.g ++ wordBytes s.h

/-- Lowercase hex digit. -/
def hexChar (n : Nat) : Char := if n < 10 then Char.ofNat (48 + n) else Char.ofNat (87 + n)

/-- Two lowercase hex digits of a byte. -/
def byteHex (b : Nat) : List Char := [hexChar (b / 16), hexChar (b % 16)]

/-- Lowercase hex rendering of a byte string (`hexdigest`). -/
def hexChars (bs : List Nat) : List Char := bs.foldr (fun b acc => byteHex b ++ acc) []

/-- UTF-8 bytes of one character (Unicode scalar value). -/
def utf8Char (c : Char) : List Nat :=
  let n := c.toNat
  if n < 128 then [n]
  else if n < 2048 then [0xC0 ||| (n >>> 6), 0x80 ||| (n &&& 63)]
  else if n < 65536 then
    [0xE0 ||| (n >>> 12), 0x80 ||| ((n >>> 6) &&& 63), 0x80 ||| (n &&& 63)]
  else
    [0xF0 ||| (n >>> 18), 0x80 ||| ((n >>> 12) &&& 63), 0x80 ||| ((n >>> 6) &&& 63),
     0x80 ||| (n &&& 63)]

/-- `s.encode("utf-8")` as a byte list. -/
def utf8Encode (s : String) : List Nat := s.data.foldr (fun c acc => utf8Char c ++ acc) []

/-- `hashlib.sha256(s.encode("utf-8")).hexdigest()[:16]`: the hashing tail
of `_stable_id`. -/
def hashRaw (s : String) : String := String.mk ((hexChars (sha256 (utf8Encode s))).take 16)

/-! ## `baseline.py`: stable identifiers -/

/-- The `anchors` list built by the loop of `_stable_id`: the `str(e.value)`
of every evidence entry whose `key` is in the tuple
`("FragmentPath", "path")`, in evidence order. -/
def anchorsOf (f : Finding) : List String :=
  f.evidence.filterMap (fun e =>
    if e.key = "FragmentPath" ∨ e.key = "path" then some (pyStr e.value) else none)

/-- `anchor = anchors[0] if anchors else f.title` in `_stable_id`. -/
def anchorOf (f : Finding) : String := (anchorsOf f).headD f.title

/-- `raw = f"{f.check_id}|{anchor}"` in `_stable_id`. -/
def rawOf (f : Finding) : String := f.check_id ++ "|" ++ anchorOf f

/-- `_stable_id` from `baseline.py`: first 16 lowercase-hex characters of
the SHA-256 of the UTF-8 encoding of `check_id|anchor`. -/
def stable_id (f : Finding) : String := hashRaw (rawOf f)

/-! ## `baseline.py`: the `Baseline` dataclass and (de)serialization -/

/-- First-match association-list lookup: Python `dict` access on a dict
with unique keys (the only dicts Python can build). -/
def lookupKV {α : Type} (m : List (String × α)) (k : String) : Option α :=
  (m.find? (fun p => p.1 == k)).map Prod.snd

/-- Python `dict.get(k)` on a serialized finding: the stored value if the
key is present, else `None`.  JSON `null` loads as Python `None`, so a
stored `null` and an absent key give the same Python value; `Json.null`
models both. -/
def pyGet (o : FDict) (k : String) : Json := (lookupKV o k).getD Json.null

/-- Python `m[k]` on the findings mapping; only evaluated at keys of `m`
(the `[]` default is never reached there). -/
def dGetF (m : List (String × FDict)) (k : String) : FDict := (lookupKV m k).getD []

/-- Python `mapped[fid] = value`: replace in place when the key exists
(dicts keep the original position), else append. -/
def dictInsert {α : Type} (m : List (String × α)) (k : String) (v : α) :
    List (String × α) :=
  if (m.map Prod.fst).contains k then m.map (fun p => if p.1 == k then (k, v) else p)
  else m ++ [(k, v)]

/-- The `Baseline` dataclass: `version` (any JSON value — the constructor
does not validate) and `findings`, a `Dict[str, Dict]` from stable
identifier to serialized finding. -/
structure Baseline where
  version : Json
  findings : List (String × FDict)
deriving Repr, DecidableEq

/-- `Baseline.to_json`, at the level of the parsed-JSON AST: the document
`json.dumps` renders (a two-key object, `version` then `findings`).  The
standard library's `dumps`/`loads` pair is the identity on this AST. -/
def Baseline.to_json (b : Baseline) : Json :=
  .obj [ ("version", b.version)
       , ("findings", .obj (b.findings.map (fun p => (p.1, Json.obj p.2)))) ]

/-- Read a parsed JSON object as a `Dict[str, Dict]`; `none` when some
value is not itself an object and the result therefore cannot inhabit the
declared field type of `Baseline.findings`. -/
def objFields : List (String × Json) → Option (List (String × FDict))
  | [] => some []
  | (k, Json.obj o) :: t => (objFields t).map (fun r => (k, o) :: r)
  | _ => none

/-- `Baseline.from_json`, on the parsed-JSON AST (`obj = json.loads(text)`):
`obj.get("version", "unknown")` / `obj.get("findings", {})` with their
defaults.  `none` models a raised exception or a constructed value the
class's declared field types exclude: a non-object document raises
`AttributeError` at `.get`, and a `findings` value that is not a mapping
of mappings cannot inhabit `Dict[str, Dict]`. -/
def Baseline.from_json (j : Json) : Option Baseline :=
  match j with
  | .obj kvs =>
      match (lookupKV kvs "findings").getD (Json.obj []) with
      | .obj fs =>
          match objFields fs with
          | some fs' => some ⟨(lookupKV kvs "version").getD (Json.str "unknown"), fs'⟩
          | none => none
      | _ => none
  | _ => none

/-! ## `baseline.py`: `make_baseline` and `diff_baseline` -/

/-- `make_baseline`: fold the findings into a dict keyed by stable id (a
later finding with the same id overwrites the earlier entry, in place). -/
def make_baseline (findings : List Finding) (version : Json) : Baseline :=
  ⟨version, findings.foldl (fun m f => dictInsert m (stable_id f) f.to_dict) []⟩

/-- Python `sorted` on a list of distinct strings: ascending lexicographic
order on Unicode code points (equal to byte order of the UTF-8 forms). -/
def sortStr (l : List String) : List String := List.insertionSort (· ≤ ·) l

/-- One record of the `changed` list: the dict `{id, old, new}`. -/
structure ChangedEntry where
  id : String
  old : FDict
  new : FDict
deriving Repr, DecidableEq

/-- The dict returned by `diff_baseline`: keys `added`, `removed`,
`changed`. -/
structure DiffResult where
  added : List FDict
  removed : List FDict
  changed : List ChangedEntry
deriving Repr, DecidableEq

/-- `diff_baseline`: build the new baseline with the old version label,
then compare key sets.  `sorted(new_ids - old_ids)` etc. operate on the
(duplicate-free) dict key lists. -/
def diff_baseline (old : Baseline) (new_findings : List Finding) : DiffResult :=
  let new_base := make_baseline new_findings old.version
  let old_ids := old.findings.map Prod.fst
  let new_ids := new_base.findings.map Prod.fst
  let added := (sortStr (new_ids.filter (fun i => !(old_ids.contains i)))).map
      (fun i => dGetF new_base.findings i)
  let removed := (sortStr (old_ids.filter (fun i => !(new_ids.contains i)))).map
      (fun i => dGetF old.findings i)
  let changed := (sortStr (old_ids.filter (fun i => new_ids.contains i))).filterMap
      (fun i =>
        let o := dGetF old.findings i
        let n := dGetF new_base.findings i
        if pyGet o "severity" ≠ pyGet n "severity" ∨
           pyGet o "description" ≠ pyGet n "description"
        then some ⟨i, o, n⟩ else none)
  ⟨added, removed, changed⟩

/-! ## Spec-side definitions (from the specification's words, for
comparison with the code-derived definitions above) -/

/-- Modelled from the spec: the anchor is the value of the first evidence
entry whose key is exactly `FragmentPath` or `path`, as a string, and the
title when no such entry exists. -/
def anchorSpec (f : Finding) : String :=
  match f.evidence.find? (fun e => e.key == "FragmentPath" || e.key == "path") with
  | some e => pyStr e.value
  | none => f.title

/-- The identifier list underlying `added`, per the spec's description. -/
def addedIds (old : Baseline) (nf : List Finding) : List String :=
  sortStr (((make_baseline nf old.version).findings.map Prod.fst).filter
    (fun i => !((old.findings.map Prod.fst).contains i)))

/-- The identifier list underlying `removed`, per the spec's description. -/
def removedIds (old : Baseline) (nf : List Finding) : List String :=
  sortStr ((old.findings.map Prod.fst).filter
    (fun i => !(((make_baseline nf old.version).findings.map Prod.fst).contains i)))

/-- The sorted common-identifier list `diff_baseline` walks for `changed`. -/
def commonIds (old : Baseline) (nf : List Finding) : List String :=
  sortStr ((old.findings.map Prod.fst).filter
    (fun i => ((make_baseline nf old.version).findings.map Prod.fst).contains i))

/-! ## Support for the collision analysis of the truncated identifier -/

/-- Little-endian base-256 value of a byte list. -/
def ofLE : List Nat → Nat
  | [] => 0
  | b :: t => b + 256 * ofLE t

/-- A family of findings with a fixed anchor (the title, no evidence) and
pairwise distinct `check_id`s. -/
def aFinding (n : Nat) : Finding :=
  ⟨String.mk (List.replicate n 'a'), "t", "info", "", [], none, []⟩

/-! ## Theorems -/

theorem objFields_map (l : List (String × FDict)) :
    objFields (l.map (fun p => (p.1, Json.obj p.2))) = some l := by
  induction l with
  | nil => rfl
  | cons p t ih => cases p; simp [objFields, ih]

/-- C7: for every `Baseline` value `b`, `Baseline.from_json (b.to_json)`
yields a baseline whose `version` equals `b.version` and whose `findings`
mapping equals `b.findings` — i.e. it yields `b` itself. -/
theorem C7_roundtrip (b : Baseline) : Baseline.from_json b.to_json = some b := by
  simp [Baseline.to_json, Baseline.from_json, lookupKV, List.find?, objFields_map]

/-- C8 (counterexample): the claim's totality over arbitrary parsed JSON
documents fails.  The JSON document `5` lacks a `"version"` field, yet
deserializing it raises `AttributeError` (`int` has no `.get`) instead of
producing a baseline with version `"unknown"`. -/
theorem C8_counterexample :
    Baseline.from_json (Json.num 5) = none ∧
    ¬ ∃ b : Baseline, Baseline.from_json (Json.num 5) = some b ∧
        b.version = Json.str "unknown" := by
  refine ⟨rfl, ?_⟩
  rintro ⟨b, hb, -⟩
  exact Option.noConfusion hb

/-- C8 (amended): over JSON *object* documents, deserialization is lenient:
a missing `findings` field yields the empty findings mapping (and
deserialization succeeds), and whenever deserialization succeeds a missing
`version` field yields the literal string `"unknown"` and a missing
`findings` field yields the empty mapping.  In particular `from_json('{}')`
succeeds with `version="unknown"`, `findings={}`. -/
theorem C8_amended (kvs : List (String × Json)) :
    (lookupKV kvs "findings" = none →
      Baseline.from_json (Json.obj kvs) =
        some ⟨(lookupKV kvs "version").getD (Json.str "unknown"), []⟩) ∧
    (∀ b : Baseline, Baseline.from_json (Json.obj kvs) = some b →
      (lookupKV kvs "version" = none → b.version = Json.str "unknown") ∧
      (lookupKV kvs "findings" = none → b.findings = [])) := by
  constructor
  · intro h
    simp [Baseline.from_json, h, objFields]
  · intro b hb
    have hb2 : (match (lookupKV kvs "findings").getD (Json.obj []) with
        | Json.obj fs =>
            match objFields fs with
            | some fs' =>
                some (Baseline.mk ((lookupKV kvs "version").getD (Json.str "unknown")) fs')
            | none => none
        | _ => none) = some b := hb
    clear hb
    constructor
    · intro hv
      split at hb2
      · split at hb2
        · cases hb2
          simp [hv]
        · exact Option.noConfusion hb2
      · exact Option.noConfusion hb2
    · intro hf
      rw [hf] at hb2
      simp [objFields] at hb2
      subst hb2
      rfl

/-- C8 witness: the amended theorem applied to the empty object `{}`. -/
theorem C8_amended_witness :
    Baseline.from_json (Json.obj []) = some ⟨Json.str "unknown", []⟩ := by
  have h := (C8_amended []).1 rfl
  simpa [lookupKV] using h

theorem filter_not_contains_self (keys : List String) :
    keys.filter (fun i => !(keys.contains i)) = [] := by
  apply List.filter_eq_nil_iff.mpr
  intro a ha
  simp [ha]

theorem diff_baseline_self (old : Baseline) (F : List Finding)
    (h : make_baseline F old.version = old) :
    diff_baseline old F = ⟨[], [], []⟩ := by
  unfold diff_baseline
  rw [h]
  dsimp only
  simp only [DiffResult.mk.injEq]
  refine ⟨?_, ?_, ?_⟩
  · rw [filter_not_contains_self]; rfl
  · rw [filter_not_contains_self]; rfl
  · apply List.filterMap_eq_nil_iff.mpr
    intro i _
    simp

/-- C3: diffing a finding list against the baseline made from it (with any
version string) yields empty `added`, `removed` and `changed` sequences. -/
theorem C3_diff_idempotent (F : List Finding) (v : String) :
    diff_baseline (make_baseline F (Json.str v)) F = ⟨[], [], []⟩ :=
  diff_baseline_self _ F rfl

theorem anchors_head_eq (l : List Evidence) (t : String) :
    (l.filterMap (fun e =>
      if e.key = "FragmentPath" ∨ e.key = "path" then some (pyStr e.value) else none)).headD t =
    (match l.find? (fun e => e.key == "FragmentPath" || e.key == "path") with
     | some e => pyStr e.value
     | none => t) := by
  induction l with
  | nil => rfl
  | cons e l ih =>
    by_cases h : e.key = "FragmentPath" ∨ e.key = "path"
    · rcases h with h | h <;> simp [List.find?, h]
    · have h1 : (e.key == "FragmentPath") = false :=
        beq_eq_false_iff_ne.mpr (fun hh => h (Or.inl hh))
      have h2 : (e.key == "path") = false :=
        beq_eq_false_iff_ne.mpr (fun hh => h (Or.inr hh))
      simpa [List.find?, h, h1, h2] using ih

theorem anchorOf_eq_anchorSpec (f : Finding) : anchorOf f = anchorSpec f :=
  anchors_head_eq f.evidence f.title

/-- C1: the stable identifier of any finding equals the first 16 characters
of the lowercase hex SHA-256 digest of the UTF-8 bytes of
`check_id + "|" + anchor`, where the anchor is the value of the first
evidence entry keyed exactly `FragmentPath` or `path` (as a string) and the
title when no such entry exists; the function is total (it is a Lean
function), and with empty evidence and empty title it hashes
`check_id + "|"`. -/
theorem C1_stable_id_formula (f : Finding) :
    stable_id f =
      String.mk ((hexChars (sha256 (utf8Encode (f.check_id ++ "|" ++ anchorSpec f)))).take 16) ∧
    (f.evidence = [] → f.title = "" →
      stable_id f =
        String.mk ((hexChars (sha256 (utf8Encode (f.check_id ++ "|")))).take 16)) := by
  constructor
  · unfold stable_id hashRaw rawOf
    rw [anchorOf_eq_anchorSpec]
  · intro he ht
    have hraw : rawOf f = f.check_id ++ "|" := by
      unfold rawOf anchorOf anchorsOf
      rw [he, ht]
      apply String.ext
      simp
    unfold stable_id hashRaw
    rw [hraw]

/-- C1 witness: the formula evaluated at a concrete finding with anchor
evidence, and the degenerate case at a finding with empty evidence and
empty title. -/
theorem C1_stable_id_formula_witness :
    stable_id ⟨"cron.system_crontab", "tw", "low", "d",
        [⟨"cron", "path", .pstr "/etc/crontab"⟩], none, []⟩ =
      String.mk ((hexChars (sha256 (utf8Encode ("cron.system_crontab" ++ "|" ++
        anchorSpec ⟨"cron.system_crontab", "tw", "low", "d",
          [⟨"cron", "path", .pstr "/etc/crontab"⟩], none, []⟩)))).take 16) ∧
    stable_id ⟨"cron.empty", "", "low", "d", [], none, []⟩ =
      String.mk ((hexChars (sha256 (utf8Encode ("cron.empty" ++ "|")))).take 16) :=
  ⟨(C1_stable_id_formula _).1, (C1_stable_id_formula _).2 rfl rfl⟩

/-- C5: the stable identifier depends only on `check_id`, the title and the
`(key, value)` projections of the evidence list; severity, description,
remediation, references and evidence sources do not influence it, and the
function is deterministic. -/
theorem C5_id_invariance (f g : Finding)
    (hc : f.check_id = g.check_id) (ht : f.title = g.title)
    (he : f.evidence.map (fun e => (e.key, e.value)) =
          g.evidence.map (fun e => (e.key, e.value))) :
    stable_id f = stable_id g := by
  have hanch : anchorsOf f = anchorsOf g := by
    have h2 := congrArg (List.filterMap (fun p : String × PyVal =>
      if p.1 = "FragmentPath" ∨ p.1 = "path" then some (pyStr p.2) else none)) he
    simpa [anchorsOf, List.filterMap_map, Function.comp] using h2
  unfold stable_id hashRaw rawOf anchorOf
  rw [hc, ht, hanch]

/-- C5 witness: two findings sharing `check_id`, title and evidence
`(key, value)` pairs but differing in severity, description, remediation,
references and evidence source get the same identifier. -/
theorem C5_id_invariance_witness :
    stable_id ⟨"shell.profile", "T", "low", "d1",
        [⟨"srcA", "path", .pstr "/etc/profile"⟩], none, []⟩ =
    stable_id ⟨"shell.profile", "T", "high", "d2",
        [⟨"srcB", "path", .pstr "/etc/profile"⟩], some "fix", ["ref"]⟩ :=
  C5_id_invariance _ _ rfl rfl rfl

/-- C6: a `path`-anchored finding and a `FragmentPath`-anchored finding
with the same `check_id` and the same anchor value `/etc/crontab` get the
same identifier, and a finding with no anchor-keyed evidence gets the hash
of its title as anchor. -/
theorem C6_anchor_keys :
    stable_id ⟨"persistence.cron", "t1", "low", "d1",
        [⟨"cron", "path", .pstr "/etc/crontab"⟩], none, []⟩ =
    stable_id ⟨"persistence.cron", "t2", "high", "d2",
        [⟨"systemd", "FragmentPath", .pstr "/etc/crontab"⟩], some "r", ["x"]⟩ ∧
    stable_id ⟨"persistence.cron", "t3", "low", "d3",
        [⟨"cron", "line", .pstr "xyz"⟩], none, []⟩ =
    String.mk ((hexChars (sha256 (utf8Encode ("persistence.cron" ++ "|" ++ "t3")))).take 16) :=
  ⟨rfl, rfl⟩

theorem sha256_length (m : List Nat) : (sha256 m).length = 32 := by
  unfold sha256 wordBytes
  simp

theorem wordBytes_lt (w : Nat) : ∀ b ∈ wordBytes w, b < 256 := by
  intro b hb
  simp only [wordBytes, List.mem_cons, List.not_mem_nil, or_false] at hb
  rcases hb with h | h | h | h <;> subst h <;> exact Nat.mod_lt _ (by norm_num)

theorem sha256_bytes_lt (m : List Nat) : ∀ b ∈ sha256 m, b < 256 := by
  unfold sha256
  dsimp only
  simp only [List.forall_mem_append]
  repeat' apply And.intro
  all_goals exact wordBytes_lt _

theorem ofLE_lt (l : List Nat) (h : ∀ b ∈ l, b < 256) : ofLE l < 256 ^ l.length := by
  induction l with
  | nil => simp [ofLE]
  | cons b t ih =>
    have hb := h b (List.mem_cons_self _ _)
    have ht := ih (fun x hx => h x (List.mem_cons_of_mem _ hx))
    calc b + 256 * ofLE t < 256 * (ofLE t + 1) := by omega
      _ ≤ 256 * 256 ^ t.length := Nat.mul_le_mul_left _ ht
      _ = 256 ^ (t.length + 1) := by rw [pow_succ, Nat.mul_comm]

theorem ofLE_inj : ∀ (l1 l2 : List Nat), l1.length = l2.length →
    (∀ b ∈ l1, b < 256) → (∀ b ∈ l2, b < 256) → ofLE l1 = ofLE l2 → l1 = l2
  | [], [], _, _, _, _ => rfl
  | [], _ :: _, h, _, _, _ => absurd h (by simp)
  | _ :: _, [], h, _, _, _ => absurd h (by simp)
  | a :: t1, b :: t2, hlen, h1, h2, hv => by
      have ha : a < 256 := h1 a (by simp)
      have hb : b < 256 := h2 b (by simp)
      simp only [ofLE] at hv
      have hab : a = b := by omega
      have htv : ofLE t1 = ofLE t2 := by omega
      have ht := ofLE_inj t1 t2 (by simpa using hlen)
        (fun x hx => h1 x (by simp [hx])) (fun x hx => h2 x (by simp [hx])) htv
      rw [hab, ht]

/-- C9 (counterexample): the claim that distinct `check_id`s with the same
anchor always yield distinct stable identifiers is false: the identifier
keeps only the first 16 hex characters (64 bits) of the digest, so by the
pigeonhole principle infinitely many `check_id`s collide with each other. -/
theorem C9_counterexample :
    ¬ (∀ f g : Finding, anchorOf f = anchorOf g → f.check_id ≠ g.check_id →
        stable_id f ≠ stable_id g) := by
  intro hcl
  have hfin : ∀ n : ℕ, ofLE (sha256 (utf8Encode (rawOf (aFinding n)))) < 256 ^ 32 := by
    intro n
    have h := ofLE_lt (sha256 (utf8Encode (rawOf (aFinding n)))) (sha256_bytes_lt _)
    rwa [sha256_length] at h
  obtain ⟨n, m, hne, heq⟩ := Finite.exists_ne_map_eq_of_infinite
    (fun n : ℕ => (⟨ofLE (sha256 (utf8Encode (rawOf (aFinding n)))), hfin n⟩ : Fin (256 ^ 32)))
  have hv := congrArg Fin.val heq
  have hdig : sha256 (utf8Encode (rawOf (aFinding n))) =
      sha256 (utf8Encode (rawOf (aFinding m))) :=
    ofLE_inj _ _ (by rw [sha256_length, sha256_length])
      (sha256_bytes_lt _) (sha256_bytes_lt _) hv
  have hid : stable_id (aFinding n) = stable_id (aFinding m) := by
    unfold stable_id hashRaw
    rw [hdig]
  have hcid : (aFinding n).check_id ≠ (aFinding m).check_id := by
    intro h
    apply hne
    have h2 := congrArg List.length (congrArg String.data h)
    simpa [aFinding] using h2
  exact hcl (aFinding n) (aFinding m) (by rfl) hcid hid

/-- C9 (amended): two findings with the same anchor but different
`check_id` produce different SHA-256 *preimages* `check_id|anchor`; the
truncated 16-hex-character identifiers themselves may nevertheless
coincide. -/
theorem C9_amended (f g : Finding) (ha : anchorOf f = anchorOf g)
    (hc : f.check_id ≠ g.check_id) : rawOf f ≠ rawOf g := by
  intro h
  apply hc
  unfold rawOf at h
  rw [ha] at h
  apply String.ext
  have h2 := congrArg String.data h
  simpa using h2

/-- C9 witness: the amended theorem at two concrete findings with the same
anchor (their shared title) and different `check_id`s. -/
theorem C9_amended_witness :
    rawOf ⟨"check.a", "T", "low", "d", [], none, []⟩ ≠
    rawOf ⟨"check.b", "T", "low", "d", [], none, []⟩ :=
  C9_amended _ _ rfl (by decide)

theorem mem_sortStr {l : List String} {x : String} : x ∈ sortStr l ↔ x ∈ l := by
  simp [sortStr]

theorem sorted_sortStr (l : List String) : List.Sorted (· ≤ ·) (sortStr l) :=
  List.sorted_insertionSort _ l

theorem nodup_sortStr {l : List String} (h : l.Nodup) : (sortStr l).Nodup :=
  (List.perm_insertionSort _ l).nodup_iff.mpr h

theorem mem_addedIds (old : Baseline) (nf : List Finding) (i : String) :
    i ∈ addedIds old nf ↔
      (i ∈ (make_baseline nf old.version).findings.map Prod.fst ∧
       i ∉ old.findings.map Prod.fst) := by
  unfold addedIds
  rw [mem_sortStr, List.mem_filter]
  simp

theorem mem_removedIds (old : Baseline) (nf : List Finding) (i : String) :
    i ∈ removedIds old nf ↔
      (i ∈ old.findings.map Prod.fst ∧
       i ∉ (make_baseline nf old.version).findings.map Prod.fst) := by
  unfold removedIds
  rw [mem_sortStr, List.mem_filter]
  simp

theorem mem_changed (old : Baseline) (nf : List Finding) (r : ChangedEntry) :
    r ∈ (diff_baseline old nf).changed ↔
      (r.id ∈ old.findings.map Prod.fst ∧
       r.id ∈ (make_baseline nf old.version).findings.map Prod.fst ∧
       r.old = dGetF old.findings r.id ∧
       r.new = dGetF (make_baseline nf old.version).findings r.id ∧
       (pyGet r.old "severity" ≠ pyGet r.new "severity" ∨
        pyGet r.old "description" ≠ pyGet r.new "description")) := by
  unfold diff_baseline
  dsimp only
  rw [List.mem_filterMap]
  constructor
  · rintro ⟨i, hi, hfi⟩
    rw [mem_sortStr, List.mem_filter] at hi
    by_cases hc : pyGet (dGetF old.findings i) "severity" ≠
        pyGet (dGetF (make_baseline nf old.version).findings i) "severity" ∨
        pyGet (dGetF old.findings i) "description" ≠
        pyGet (dGetF (make_baseline nf old.version).findings i) "description"
    · rw [if_pos hc] at hfi
      cases hfi
      refine ⟨hi.1, by simpa using hi.2, rfl, rfl, hc⟩
    · rw [if_neg hc] at hfi
      exact Option.noConfusion hfi
  · rintro ⟨h1, h2, h3, h4, h5⟩
    refine ⟨r.id, ?_, ?_⟩
    · rw [mem_sortStr, List.mem_filter]
      exact ⟨h1, by simpa using h2⟩
    · rw [← h3, ← h4]
      rw [if_pos h5]

/-- C2: for an identifier in both key sets, `diff_baseline` emits a record
`{id, old, new}` if and only if the old and new serialized findings differ
on the stored `severity` value or on the stored `description` value
(structural inequality; an absent key reads as `None`); in particular when
both fields agree — whatever evidence, remediation, references or title do
— no changed record is emitted for that identifier. -/
theorem C2_changed_iff (old : Baseline) (nf : List Finding) :
    (∀ r : ChangedEntry, r ∈ (diff_baseline old nf).changed ↔
      (r.id ∈ old.findings.map Prod.fst ∧
       r.id ∈ (make_baseline nf old.version).findings.map Prod.fst ∧
       r.old = dGetF old.findings r.id ∧
       r.new = dGetF (make_baseline nf old.version).findings r.id ∧
       (pyGet r.old "severity" ≠ pyGet r.new "severity" ∨
        pyGet r.old "description" ≠ pyGet r.new "description"))) ∧
    (∀ i : String,
      pyGet (dGetF old.findings i) "severity" =
        pyGet (dGetF (make_baseline nf old.version).findings i) "severity" →
      pyGet (dGetF old.findings i) "description" =
        pyGet (dGetF (make_baseline nf old.version).findings i) "description" →
      ∀ r ∈ (diff_baseline old nf).changed, r.id ≠ i) := by
  refine ⟨fun r => mem_changed old nf r, ?_⟩
  intro i hs hd r hr hri
  subst hri
  obtain ⟨-, -, h3, h4, h5⟩ := (mem_changed old nf r).mp hr
  rw [h3, h4] at h5
  rcases h5 with h | h
  · exact h hs
  · exact h hd

/-- C2 witness: the characterization instantiated at a concrete record and
a concrete diff of two empty baselines. -/
theorem C2_changed_iff_witness :
    ((⟨"x", [], []⟩ : ChangedEntry) ∈
        (diff_baseline ⟨Json.str "1", []⟩ []).changed ↔
      ((⟨"x", [], []⟩ : ChangedEntry).id ∈
          (⟨Json.str "1", []⟩ : Baseline).findings.map Prod.fst ∧
       (⟨"x", [], []⟩ : ChangedEntry).id ∈
         (make_baseline [] (⟨Json.str "1", []⟩ : Baseline).version).findings.map Prod.fst ∧
       (⟨"x", [], []⟩ : ChangedEntry).old =
         dGetF (⟨Json.str "1", []⟩ : Baseline).findings "x" ∧
       (⟨"x", [], []⟩ : ChangedEntry).new =
         dGetF (make_baseline [] (⟨Json.str "1", []⟩ : Baseline).version).findings "x" ∧
       (pyGet (⟨"x", [], []⟩ : ChangedEntry).old "severity" ≠
          pyGet (⟨"x", [], []⟩ : ChangedEntry).new "severity" ∨
        pyGet (⟨"x", [], []⟩ : ChangedEntry).old "description" ≠
          pyGet (⟨"x", [], []⟩ : ChangedEntry).new "description"))) :=
  (C2_changed_iff ⟨Json.str "1", []⟩ []).1 ⟨"x", [], []⟩

/-- C4: `diff_baseline` builds the new baseline with the old baseline's
version label; `added` is exactly the new baseline's serialized findings at
the identifiers that are new keys but not old keys, `removed` exactly the
old mapping's stored findings at the identifiers that are old keys but not
new keys, and both identifier sequences are sorted ascending (`≤` on
strings, i.e. lexicographic code-point/byte order). -/
theorem C4_added_removed (old : Baseline) (nf : List Finding) :
    (diff_baseline old nf).added =
      (addedIds old nf).map (fun i => dGetF (make_baseline nf old.version).findings i) ∧
    (diff_baseline old nf).removed =
      (removedIds old nf).map (fun i => dGetF old.findings i) ∧
    (∀ i, i ∈ addedIds old nf ↔
      (i ∈ (make_baseline nf old.version).findings.map Prod.fst ∧
       i ∉ old.findings.map Prod.fst)) ∧
    (∀ i, i ∈ removedIds old nf ↔
      (i ∈ old.findings.map Prod.fst ∧
       i ∉ (make_baseline nf old.version).findings.map Prod.fst)) ∧
    List.Sorted (· ≤ ·) (addedIds old nf) ∧
    List.Sorted (· ≤ ·) (removedIds old nf) :=
  ⟨rfl, rfl, mem_addedIds old nf, mem_removedIds old nf,
   sorted_sortStr _, sorted_sortStr _⟩

/-- C4 witness: the `added`/`removed` equations of the theorem at a
concrete old baseline and finding list. -/
theorem C4_added_removed_witness :
    (diff_baseline ⟨Json.str "1", [("k", [("severity", Json.str "low")])]⟩ []).removed =
      (removedIds ⟨Json.str "1", [("k", [("severity", Json.str "low")])]⟩ []).map
        (fun i => dGetF (⟨Json.str "1", [("k", [("severity", Json.str "low")])]⟩ :
          Baseline).findings i) :=
  (C4_added_removed ⟨Json.str "1", [("k", [("severity", Json.str "low")])]⟩ []).2.1

theorem keys_dictInsert_of_contains {α : Type} (m : List (String × α)) (k : String) (v : α)
    (h : (m.map Prod.fst).contains k = true) :
    (dictInsert m k v).map Prod.fst = m.map Prod.fst := by
  unfold dictInsert
  rw [if_pos h, List.map_map]
  apply List.map_congr_left
  intro p _
  by_cases hb : (p.1 == k) = true
  · simp only [Function.comp_apply, if_pos hb]
    exact (eq_of_beq hb).symm
  · simp only [Function.comp_apply, if_neg hb]

theorem keys_dictInsert_of_not_contains {α : Type} (m : List (String × α)) (k : String)
    (v : α) (h : (m.map Prod.fst).contains k = false) :
    (dictInsert m k v).map Prod.fst = m.map Prod.fst ++ [k] := by
  unfold dictInsert
  have h' : ¬ ((m.map Prod.fst).contains k = true) := by rw [h]; simp
  rw [if_neg h', List.map_append]
  rfl

theorem nodup_keys_dictInsert {α : Type} (m : List (String × α)) (k : String) (v : α)
    (h : (m.map Prod.fst).Nodup) : ((dictInsert m k v).map Prod.fst).Nodup := by
  by_cases hc : (m.map Prod.fst).contains k = true
  · rw [keys_dictInsert_of_contains m k v hc]
    exact h
  · have hc' : (m.map Prod.fst).contains k = false := by
      simpa using hc
    rw [keys_dictInsert_of_not_contains m k v hc']
    refine h.append (List.nodup_singleton k) ?_
    intro a ha hb
    rw [List.mem_singleton] at hb
    subst hb
    simp [ha] at hc'

theorem nodup_keys_make_baseline (nf : List Finding) (v : Json) :
    ((make_baseline nf v).findings.map Prod.fst).Nodup := by
  suffices h : ∀ (l : List Finding) (m : List (String × FDict)), (m.map Prod.fst).Nodup →
      ((l.foldl (fun m f => dictInsert m (stable_id f) f.to_dict) m).map Prod.fst).Nodup by
    exact h nf [] (by simp)
  intro l
  induction l with
  | nil => intro m h; exact h
  | cons f t ih =>
    intro m h
    exact ih _ (nodup_keys_dictInsert _ _ _ h)

theorem nodup_map_id_filterMap (l : List String) (F : String → Option ChangedEntry)
    (hF : ∀ i r, F i = some r → r.id = i) (h : l.Nodup) :
    ((l.filterMap F).map ChangedEntry.id).Nodup := by
  induction l with
  | nil => simp
  | cons a t ih =>
    rw [List.filterMap_cons]
    cases hFa : F a with
    | none => exact ih h.of_cons
    | some r =>
      rw [List.map_cons]
      rw [List.nodup_cons]
      refine ⟨?_, ih h.of_cons⟩
      intro hmem
      rw [List.mem_map] at hmem
      obtain ⟨r', hr', hid⟩ := hmem
      rw [List.mem_filterMap] at hr'
      obtain ⟨i, hit, hFi⟩ := hr'
      have h1 : r'.id = i := hF i r' hFi
      have h2 : r.id = a := hF a r hFa
      have hia : i = a := (h1.symm.trans hid).trans h2
      subst hia
      exact (List.nodup_cons.mp h).1 hit

/-- C10: the identifier lists underlying `added`, `removed` and `changed`
are pairwise disjoint and duplicate-free (the old mapping's keys being
unique, as Python dict keys always are), and every changed record's
identifier lies in both the old and the new key set. -/
theorem C10_partition (old : Baseline) (nf : List Finding)
    (hnd : (old.findings.map Prod.fst).Nodup) :
    (addedIds old nf).Nodup ∧
    (removedIds old nf).Nodup ∧
    ((diff_baseline old nf).changed.map ChangedEntry.id).Nodup ∧
    (∀ i, i ∈ addedIds old nf →
      i ∉ removedIds old nf ∧
      i ∉ (diff_baseline old nf).changed.map ChangedEntry.id) ∧
    (∀ i, i ∈ removedIds old nf →
      i ∉ (diff_baseline old nf).changed.map ChangedEntry.id) ∧
    (∀ r ∈ (diff_baseline old nf).changed,
      r.id ∈ old.findings.map Prod.fst ∧
      r.id ∈ (make_baseline nf old.version).findings.map Prod.fst) := by
  have hnew := nodup_keys_make_baseline nf old.version
  have hchid : ∀ i, i ∈ (diff_baseline old nf).changed.map ChangedEntry.id →
      i ∈ old.findings.map Prod.fst ∧
      i ∈ (make_baseline nf old.version).findings.map Prod.fst := by
    intro i hi
    rw [List.mem_map] at hi
    obtain ⟨r, hr, hid⟩ := hi
    obtain ⟨h1, h2, -, -, -⟩ := (mem_changed old nf r).mp hr
    exact ⟨hid ▸ h1, hid ▸ h2⟩
  refine ⟨?_, ?_, ?_, ?_, ?_, ?_⟩
  · exact nodup_sortStr (List.Nodup.filter _ hnew)
  · exact nodup_sortStr (List.Nodup.filter _ hnd)
  · have heq : (diff_baseline old nf).changed =
        (sortStr ((old.findings.map Prod.fst).filter
          (fun i => ((make_baseline nf old.version).findings.map Prod.fst).contains i))).filterMap
          (fun i =>
            if pyGet (dGetF old.findings i) "severity" ≠
                pyGet (dGetF (make_baseline nf old.version).findings i) "severity" ∨
               pyGet (dGetF old.findings i) "description" ≠
                pyGet (dGetF (make_baseline nf old.version).findings i) "description"
            then some ⟨i, dGetF old.findings i,
                   dGetF (make_baseline nf old.version).findings i⟩
            else none) := rfl
    rw [heq]
    apply nodup_map_id_filterMap
    · intro i r h
      split at h
      · cases h; rfl
      · exact Option.noConfusion h
    · exact nodup_sortStr (List.Nodup.filter _ hnd)
  · intro i hia
    obtain ⟨hin, hnotold⟩ := (mem_addedIds old nf i).mp hia
    refine ⟨?_, ?_⟩
    · intro hir
      exact hnotold ((mem_removedIds old nf i).mp hir).1
    · intro hic
      exact hnotold (hchid i hic).1
  · intro i hir hic
    exact ((mem_removedIds old nf i).mp hir).2 (hchid i hic).2
  · intro r hr
    obtain ⟨h1, h2, -, -, -⟩ := (mem_changed old nf r).mp hr
    exact ⟨h1, h2⟩

/-- C10 witness: the theorem at a concrete old baseline (whose key list is
duplicate-free by `decide`) and an empty new finding list. -/
theorem C10_partition_witness :
    (addedIds ⟨Json.str "1", [("k", [("severity", Json.str "low")])]⟩ []).Nodup :=
  (C10_partition ⟨Json.str "1", [("k", [("severity", Json.str "low")])]⟩ [] (by decide)).1
